import Mathlib

/-!
# pyHDT: the document facade of `src/hdt_document.cpp`

A shallow embedding of `applyOffset`, `HDTDocument::HDTDocument`,
`HDTDocument::search`, `HDTDocument::searchIDs`, `HDTDocument::idsToString`
and `HDTDocument::searchJoin`.

The HDT C++ library (dictionary, triples index, native iterators, query
processor) and the file system are not part of the repository; they enter as
parameters.  Values of C type `unsigned int` are natural numbers, and every
arithmetic operation on them is reduced modulo `2 ^ 32` where the C++
operation wraps.
-/

namespace PyHDT

/-! ## Data model -/

/-- Number of values of the C type `unsigned int` (32 bits). -/
def UINT_SIZE : Nat := 2 ^ 32

/-- The position of a term in a triple (`hdt::TripleComponentRole`). -/
inductive TripleComponentRole where
  | SUBJECT
  | PREDICATE
  | OBJECT
deriving DecidableEq, Repr

/-- The C++ alias `triple`, a tuple of three strings. -/
abbrev triple := String × String × String

/-- A string triple pattern (`hdt::TripleString`). -/
structure TripleString where
  subject : String
  predicate : String
  object : String
deriving DecidableEq, Repr

/-- An identifier triple pattern (`hdt::TripleID`); `0` is the wildcard. -/
structure TripleID where
  subject : Nat
  predicate : Nat
  object : Nat
deriving DecidableEq, Repr

/-- A call received by the HDT library on behalf of one native iterator handle. -/
inductive Call where
  | search (tid : TripleID)
  | newIterator
  | estimatedNumResults
  | skip (pos : Nat)
  | hasNext
  | next
deriving DecidableEq, Repr

/-- The methods of `hdt::IteratorTripleID` that the facade calls, over a handle
state `σ` yielding items of type `α`.  Every method may change the handle, so
each returns the handle it leaves behind. -/
structure NativeIterator (σ α : Type) where
  hasNext : σ → Bool × σ
  next : σ → Option α × σ
  skip : Nat → σ → σ
  estimatedNumResults : σ → Nat × σ

/-- The same iterator with a journal: every method call is appended to the list
carried next to the handle. -/
def NativeIterator.traced {σ α : Type} (I : NativeIterator σ α) :
    NativeIterator (σ × List Call) α where
  hasNext s := ((I.hasNext s.1).1, (I.hasNext s.1).2, s.2 ++ [Call.hasNext])
  next s := ((I.next s.1).1, (I.next s.1).2, s.2 ++ [Call.next])
  skip pos s := (I.skip pos s.1, s.2 ++ [Call.skip pos])
  estimatedNumResults s :=
    ((I.estimatedNumResults s.1).1, (I.estimatedNumResults s.1).2,
      s.2 ++ [Call.estimatedNumResults])

/-! ## `applyOffset` -/

/-- The loop `while (it->hasNext() && remainingSteps > 0) { it->next(); remainingSteps--; }`
of `applyOffset`: `hasNext` is evaluated first on every round, the last one included. -/
def applyOffsetLoop {σ α : Type} (I : NativeIterator σ α) : Nat → σ → σ
  | 0, it => (I.hasNext it).2
  | remainingSteps + 1, it =>
    if (I.hasNext it).1 then
      applyOffsetLoop I remainingSteps (I.next (I.hasNext it).2).2
    else
      (I.hasNext it).2

/-- The template function `applyOffset(it, offset, cardinality)`; both numbers are
`unsigned int`, so `offset - cardinality + 1` and `cardinality - 1` wrap. -/
def applyOffset {σ α : Type} (I : NativeIterator σ α) (it : σ)
    (offset cardinality : Nat) : σ :=
  if offset > 0 ∧ offset ≥ cardinality then
    let remainingSteps := (offset - cardinality + 1) % UINT_SIZE
    let it := I.skip ((cardinality + UINT_SIZE - 1) % UINT_SIZE) it
    applyOffsetLoop I remainingSteps it
  else if offset > 0 then
    I.skip offset it
  else
    it

/-- The hypothesis "the iterator runs over the result sequence `xs` and `skip k`
positions it at index `k`": `pos` reads the index off a handle. -/
structure SkipsToIndex {σ α : Type} (I : NativeIterator σ α) (xs : List α)
    (pos : σ → Nat) : Prop where
  hasNext_eq : ∀ s, (I.hasNext s).1 = decide (pos s < xs.length)
  hasNext_pos : ∀ s, pos (I.hasNext s).2 = pos s
  next_eq : ∀ s, pos s < xs.length → (I.next s).1 = xs.get? (pos s)
  next_pos : ∀ s, pos s < xs.length → pos (I.next s).2 = pos s + 1
  skip_pos : ∀ k s, pos (I.skip k s) = k

/-- A native iterator over the list `xs` announcing `estimate` results; its handle
is the index of the next item. -/
def listIterator {α : Type} (xs : List α) (estimate : Nat) : NativeIterator Nat α where
  hasNext s := (decide (s < xs.length), s)
  next s := (xs.get? s, s + 1)
  skip pos _ := pos
  estimatedNumResults s := (estimate, s)

/-- The journal of a run of the loop of `applyOffset` that pulls `m` items: `m` rounds
of `hasNext` then `next`, and the `hasNext` that ends the loop. -/
def loopJournal : Nat → List Call
  | 0 => [Call.hasNext]
  | m + 1 => Call.hasNext :: Call.next :: loopJournal m

/-! ## Dictionary, index and the iterator wrappers -/

/-- The two dictionary look-ups of the HDT library (`hdt::Dictionary`):
`stringToId` gives `0` for a term that is unknown in the position, and
`idToString` fails for an identifier that is unknown in the position. -/
structure Dictionary where
  stringToId : String → TripleComponentRole → Nat
  idToString : Nat → TripleComponentRole → Option String

/-- Modelled from the spec: `Dictionary::tripleStringtoTripleID` of the HDT library,
absent from the sources; each term is resolved in its own position
(`dictionary.resolveToId(term, position)`). -/
def tripleStringtoTripleID (d : Dictionary) (ts : TripleString) : TripleID :=
  { subject := d.stringToId ts.subject TripleComponentRole.SUBJECT
    predicate := d.stringToId ts.predicate TripleComponentRole.PREDICATE
    object := d.stringToId ts.object TripleComponentRole.OBJECT }

/-- The part of an open `hdt::HDT` the queries use: the dictionary, the virtual
methods of its native iterators, `getTriples()->search(tid)` and the base-class
iterator built by `new IteratorTripleID()`. -/
structure HDT (σ α : Type) where
  dictionary : Dictionary
  iterators : NativeIterator σ α
  search : TripleID → σ
  newIterator : σ

/-- The same store with journalled iterator handles: a handle remembers how it was
made and every call it received since. -/
def HDT.traced {σ α : Type} (H : HDT σ α) : HDT (σ × List Call) α where
  dictionary := H.dictionary
  iterators := H.iterators.traced
  search tid := (H.search tid, [Call.search tid])
  newIterator := (H.newIterator, [Call.newIterator])

/-- Modelled from the spec: the class `TripleIDIterator` (`tripleid_iterator.hpp`),
absent from the sources; its state is the native handle, the original pattern,
`limit`, `offset` and the `resultsRead` counter. -/
structure TripleIDIterator (σ : Type) where
  iterator : σ
  subject : String
  predicate : String
  object : String
  limit : Nat
  offset : Nat
  resultsRead : Nat

/-- Modelled from the spec: the constructor
`TripleIDIterator(it, subject, predicate, object, limit, offset)`, absent from the
sources; nothing has been read yet. -/
def TripleIDIterator.new {σ : Type} (it : σ) (subject predicate object : String)
    (limit offset : Nat) : TripleIDIterator σ :=
  { iterator := it, subject := subject, predicate := predicate, object := object,
    limit := limit, offset := offset, resultsRead := 0 }

/-- Modelled from the spec: `TripleIDIterator::hasNext`, absent from the sources;
true iff the native source has more and (`limit == 0` or `resultsRead < limit`). -/
def TripleIDIterator.hasNext {σ α : Type} (I : NativeIterator σ α)
    (t : TripleIDIterator σ) : Bool :=
  (I.hasNext t.iterator).1 && (t.limit == 0 || decide (t.resultsRead < t.limit))

/-- Modelled from the spec: the class `TripleIterator` (`triple_iterator.hpp`), absent
from the sources; an identifier iterator together with the dictionary. -/
structure TripleIterator (σ : Type) where
  iterator : TripleIDIterator σ
  dictionary : Dictionary

/-! ## `HDTDocument` -/

/-- The method `HDTDocument::searchIDs`: the iterator and the cardinality of the
returned tuple.  `cardinality` is a `size_t`; it is converted to `unsigned int`
where it is handed to `applyOffset`. -/
def searchIDs {σ α : Type} (H : HDT σ α) (subject predicate object : String)
    (limit offset : Nat) : TripleIDIterator σ × Nat :=
  let ts : TripleString := { subject := subject, predicate := predicate, object := object }
  let tid := tripleStringtoTripleID H.dictionary ts
  if (tid.subject = 0 ∧ subject ≠ "") ∨
      (tid.predicate = 0 ∧ predicate ≠ "") ∨
      (tid.object = 0 ∧ object ≠ "") then
    (TripleIDIterator.new H.newIterator subject predicate object limit offset, 0)
  else
    let est := H.iterators.estimatedNumResults (H.search tid)
    let cardinality := est.1
    let it := applyOffset H.iterators est.2 offset (cardinality % UINT_SIZE)
    (TripleIDIterator.new it subject predicate object limit offset, cardinality)

/-- The method `HDTDocument::search`: wraps the iterator of `searchIDs` and keeps its
cardinality. -/
def search {σ α : Type} (H : HDT σ α) (subject predicate object : String)
    (limit offset : Nat) : TripleIterator σ × Nat :=
  let tRes := searchIDs H subject predicate object limit offset
  ({ iterator := tRes.1, dictionary := H.dictionary }, tRes.2)

/-- The method `HDTDocument::idsToString`; it fails as soon as one of the three
look-ups fails. -/
def idsToString (d : Dictionary) (subject predicate object : Nat) : Option triple :=
  match d.idToString subject TripleComponentRole.SUBJECT,
        d.idToString predicate TripleComponentRole.PREDICATE,
        d.idToString object TripleComponentRole.OBJECT with
  | some s, some p, some o => some (s, p, o)
  | _, _, _ => none

/-- An exception leaving the facade: one it throws itself (`std::runtime_error`,
or the `std::out_of_range` of `std::string::at`), or one raised inside the HDT
library. -/
inductive Exception (ε : Type) where
  | runtime_error (what : String)
  | out_of_range
  | native (e : ε)
deriving DecidableEq, Repr

/-- What the file constructor needs from outside: whether `std::ifstream f(name)` is
`good()`, `HDTManager::mapIndexedHDT` and the constructor of `QueryProcessor`. -/
structure Runtime (ε hdt qp : Type) where
  ifstream_good : String → Bool
  mapIndexedHDT : String → Except ε hdt
  newQueryProcessor : hdt → qp

/-- A call into the HDT library made while a document is constructed. -/
inductive LibCall where
  | mapIndexedHDT (file : String)
  | newQueryProcessor
deriving DecidableEq, Repr

/-- The function `file_exists`: true if the file is readable. -/
def file_exists {ε hdt qp : Type} (R : Runtime ε hdt qp) (name : String) : Bool :=
  R.ifstream_good name

/-- The fields of `HDTDocument` set by the file constructor. -/
structure HDTDocument (hdt qp : Type) where
  hdt_file : String
  hdt : hdt
  processor : qp

set_option linter.dupNamespace false in
/-- The constructor `HDTDocument::HDTDocument(std::string file)`: the outcome, and the
library calls made on the way, in order. -/
def HDTDocument.HDTDocument {ε hdt qp : Type} (R : Runtime ε hdt qp) (file : String) :
    Except (Exception ε) (HDTDocument hdt qp) × List LibCall :=
  if !file_exists R file then
    (Except.error (Exception.runtime_error
      ("Cannot open HDT file '" ++ file ++ "': Not Found!")), [])
  else
    match R.mapIndexedHDT file with
    | Except.error e => (Except.error (Exception.native e), [LibCall.mapIndexedHDT file])
    | Except.ok h =>
      (Except.ok { hdt_file := file, hdt := h, processor := R.newQueryProcessor h },
        [LibCall.mapIndexedHDT file, LibCall.newQueryProcessor])

/-- The checked access `std::string::at(pos)`: the character at `pos`, or
`std::out_of_range`.  The facade only reads position `0` and only compares the
result with the ASCII character `?`. -/
def string_at {ε : Type} (s : String) (pos : Nat) : Except (Exception ε) Char :=
  match s.data.get? pos with
  | some c => Except.ok c
  | none => Except.error Exception.out_of_range

/-- The `for` loop of `HDTDocument::searchJoin` over the remaining patterns, from the
current `vars` (a `std::set<string>`) and `joinPatterns`. -/
def searchJoinLoop {ε : Type} :
    List triple → Finset String → List TripleString →
      Except (Exception ε) (Finset String × List TripleString)
  | [], vars, joinPatterns => Except.ok (vars, joinPatterns)
  | (subj, pred, obj) :: rest, vars, joinPatterns =>
    match string_at subj 0 with
    | Except.error e => Except.error e
    | Except.ok cs =>
      let vars := if cs = '?' then insert subj vars else vars
      match string_at pred 0 with
      | Except.error e => Except.error e
      | Except.ok cp =>
        let vars := if cp = '?' then insert pred vars else vars
        match string_at obj 0 with
        | Except.error e => Except.error e
        | Except.ok co =>
          let vars := if co = '?' then insert obj vars else vars
          searchJoinLoop rest vars
            (joinPatterns ++ [{ subject := subj, predicate := pred, object := obj }])

/-- The join engine: `QueryProcessor::searchJoin(joinPatterns, vars)` of the HDT
library. -/
structure QueryProcessor (ε β : Type) where
  searchJoin : List TripleString → Finset String → Except ε β

/-- Modelled from the spec: the class `JoinIterator`, absent from the sources; it
wraps the binding stream of the join engine. -/
structure JoinIterator (β : Type) where
  iterator : β

/-- The last two statements of `HDTDocument::searchJoin`: the join engine is called
with `joinPatterns` and `vars`, and its binding stream is wrapped. -/
def searchJoinCall {ε β : Type} (processor : QueryProcessor ε β)
    (joinPatterns : List TripleString) (vars : Finset String) :
    Except (Exception ε) (JoinIterator β) :=
  match processor.searchJoin joinPatterns vars with
  | Except.error e => Except.error (Exception.native e)
  | Except.ok iterator => Except.ok { iterator := iterator }

/-- The method `HDTDocument::searchJoin`. -/
def searchJoin {ε β : Type} (processor : QueryProcessor ε β) (patterns : List triple) :
    Except (Exception ε) (JoinIterator β) :=
  match searchJoinLoop patterns ∅ [] with
  | Except.error e => Except.error e
  | Except.ok (vars, joinPatterns) => searchJoinCall processor joinPatterns vars

/-! ## The words of the specification -/

/-- A term "whose first character is the sigil `?`". -/
def isVariable (t : String) : Bool :=
  t.data.head? = some '?'

/-- The three terms of a pattern: subject, predicate, object. -/
def termsOf (t : triple) : List String :=
  [t.1, t.2.1, t.2.2]

/-- A pattern as the join engine receives it. -/
def toTripleString (t : triple) : TripleString :=
  { subject := t.1, predicate := t.2.1, object := t.2.2 }

/-- The set of the terms, over every position of every pattern, whose first character
is the sigil. -/
def variablesOf : List triple → Finset String
  | [] => ∅
  | t :: rest => ((termsOf t).filter isVariable).toFinset ∪ variablesOf rest

/-! ## A small store, for concrete runs -/

/-- A dictionary with three terms per position; the same identifier names a different
term in each position. -/
def sampleDictionary : Dictionary where
  stringToId t role :=
    match role with
    | TripleComponentRole.SUBJECT =>
      if t = "urn:alice" then 1 else if t = "urn:carol" then 2 else 0
    | TripleComponentRole.PREDICATE =>
      if t = "urn:knows" then 1 else if t = "urn:age" then 2 else 0
    | TripleComponentRole.OBJECT =>
      if t = "urn:bob" then 1 else if t = "30" then 2 else 0
  idToString id role :=
    match role with
    | TripleComponentRole.SUBJECT =>
      if id = 1 then some "urn:alice" else if id = 2 then some "urn:carol" else none
    | TripleComponentRole.PREDICATE =>
      if id = 1 then some "urn:knows" else if id = 2 then some "urn:age" else none
    | TripleComponentRole.OBJECT =>
      if id = 1 then some "urn:bob" else if id = 2 then some "30" else none

/-- The triples (alice, knows, bob), (alice, age, 30), (carol, knows, bob). -/
def sampleTriples : List TripleID :=
  [{ subject := 1, predicate := 1, object := 1 },
   { subject := 1, predicate := 2, object := 2 },
   { subject := 2, predicate := 1, object := 1 }]

/-- Whether a triple matches an identifier pattern, `0` being the wildcard. -/
def matchesPattern (tid t : TripleID) : Bool :=
  (tid.subject = 0 ∨ tid.subject = t.subject) ∧
  (tid.predicate = 0 ∨ tid.predicate = t.predicate) ∧
  (tid.object = 0 ∨ tid.object = t.object)

/-- A store over `sampleTriples`: a handle is an index into the list of matches of the
pattern it was opened on, and the base-class iterator has no matches. -/
def sampleHDT : HDT (List TripleID × Nat) TripleID where
  dictionary := sampleDictionary
  iterators :=
    { hasNext := fun s => (decide (s.2 < s.1.length), s)
      next := fun s => (s.1.get? s.2, (s.1, s.2 + 1))
      skip := fun pos s => (s.1, pos)
      estimatedNumResults := fun s => (s.1.length, s) }
  search tid := (sampleTriples.filter (matchesPattern tid), 0)
  newIterator := ([], 0)

/-- A file system in which only `test.hdt` is readable, with a library that maps
any file to the store `0` and builds the query processor `1` on it. -/
def sampleRuntime : Runtime Empty Nat Nat where
  ifstream_good name := name = "test.hdt"
  mapIndexedHDT _ := Except.ok 0
  newQueryProcessor h := h + 1

/-- A join engine that never fails and hands back the arguments it was called with. -/
def echoProcessor : QueryProcessor Empty (List TripleString × Finset String) where
  searchJoin joinPatterns vars := Except.ok (joinPatterns, vars)

/-! ## Lemmas -/

theorem traced_hasNext {σ α : Type} (I : NativeIterator σ α) (s : σ) (journal : List Call) :
    I.traced.hasNext (s, journal)
      = ((I.hasNext s).1, (I.hasNext s).2, journal ++ [Call.hasNext]) := rfl

theorem traced_next {σ α : Type} (I : NativeIterator σ α) (s : σ) (journal : List Call) :
    I.traced.next (s, journal) = ((I.next s).1, (I.next s).2, journal ++ [Call.next]) := rfl

theorem traced_skip {σ α : Type} (I : NativeIterator σ α) (k : Nat) (s : σ)
    (journal : List Call) :
    I.traced.skip k (s, journal) = (I.skip k s, journal ++ [Call.skip k]) := rfl

theorem traced_estimatedNumResults {σ α : Type} (I : NativeIterator σ α) (s : σ)
    (journal : List Call) :
    I.traced.estimatedNumResults (s, journal)
      = ((I.estimatedNumResults s).1, (I.estimatedNumResults s).2,
          journal ++ [Call.estimatedNumResults]) := rfl

theorem listIterator_skipsToIndex {α : Type} (xs : List α) (estimate : Nat) :
    SkipsToIndex (listIterator xs estimate) xs id := by
  constructor <;> intros <;> simp [listIterator]

theorem applyOffsetLoop_traced_fst {σ α : Type} (I : NativeIterator σ α) (r : Nat) (s : σ)
    (journal : List Call) :
    (applyOffsetLoop I.traced r (s, journal)).1 = applyOffsetLoop I r s := by
  induction r generalizing s journal with
  | zero => simp [applyOffsetLoop, traced_hasNext]
  | succ r ih =>
    by_cases h : (I.hasNext s).1 = true
    · simp only [applyOffsetLoop, traced_hasNext, traced_next, h, if_true]
      exact ih _ _
    · simp [applyOffsetLoop, traced_hasNext, h]

theorem applyOffset_traced_fst {σ α : Type} (I : NativeIterator σ α) (s : σ)
    (journal : List Call) (offset cardinality : Nat) :
    (applyOffset I.traced (s, journal) offset cardinality).1
      = applyOffset I s offset cardinality := by
  unfold applyOffset
  split
  · simp only [traced_skip]
    exact applyOffsetLoop_traced_fst I _ _ _
  · split <;> simp [traced_skip]

theorem applyOffsetLoop_pos {σ α : Type} {I : NativeIterator σ α} {xs : List α}
    {pos : σ → Nat} (hI : SkipsToIndex I xs pos) (r : Nat) (s : σ)
    (hs : pos s ≤ xs.length) :
    pos (applyOffsetLoop I r s) = min (pos s + r) xs.length := by
  induction r generalizing s with
  | zero => simp [applyOffsetLoop, hI.hasNext_pos, hs]
  | succ r ih =>
    by_cases h : pos s < xs.length
    · have hn : pos (I.next (I.hasNext s).2).2 = pos s + 1 := by
        rw [hI.next_pos _ (by rw [hI.hasNext_pos]; exact h), hI.hasNext_pos]
      simp only [applyOffsetLoop, hI.hasNext_eq, h, decide_True, if_true]
      rw [ih _ (by omega), hn]
      congr 1
      omega
    · have hEq : pos s = xs.length := by omega
      simp [applyOffsetLoop, hI.hasNext_eq, h, hI.hasNext_pos, hEq]

theorem applyOffsetLoop_journal {σ α : Type} {I : NativeIterator σ α} {xs : List α}
    {pos : σ → Nat} (hI : SkipsToIndex I xs pos) (r : Nat) (s : σ) (journal : List Call) :
    (applyOffsetLoop I.traced r (s, journal)).2
      = journal ++ loopJournal (min r (xs.length - pos s)) := by
  induction r generalizing s journal with
  | zero => simp [applyOffsetLoop, traced_hasNext, loopJournal]
  | succ r ih =>
    by_cases h : pos s < xs.length
    · have hn : pos (I.next (I.hasNext s).2).2 = pos s + 1 := by
        rw [hI.next_pos _ (by rw [hI.hasNext_pos]; exact h), hI.hasNext_pos]
      have hm : min (r + 1) (xs.length - pos s)
          = min r (xs.length - (pos s + 1)) + 1 := by omega
      simp only [applyOffsetLoop, traced_hasNext, traced_next, hI.hasNext_eq, h, decide_True,
        if_true]
      rw [ih, hn, hm]
      simp [loopJournal]
    · have hm : min (r + 1) (xs.length - pos s) = 0 := by omega
      simp [applyOffsetLoop, traced_hasNext, hI.hasNext_eq, h, hm, loopJournal]

theorem count_next_loopJournal (m : Nat) : (loopJournal m).count Call.next = m := by
  induction m with
  | zero => simp [loopJournal]
  | succ m ih => simp [loopJournal, ih]

theorem applyOffsetLoop_journal_extends {σ α : Type} (I : NativeIterator σ α) (r : Nat)
    (s : σ) (journal : List Call) :
    ∃ rest, (applyOffsetLoop I.traced r (s, journal)).2 = journal ++ rest := by
  induction r generalizing s journal with
  | zero => exact ⟨[Call.hasNext], by simp [applyOffsetLoop, traced_hasNext]⟩
  | succ r ih =>
    by_cases h : (I.hasNext s).1 = true
    · obtain ⟨rest, hrest⟩ := ih (I.next (I.hasNext s).2).2
        (journal ++ [Call.hasNext] ++ [Call.next])
      refine ⟨[Call.hasNext] ++ [Call.next] ++ rest, ?_⟩
      simp only [applyOffsetLoop, traced_hasNext, traced_next, h, if_true]
      rw [hrest]
      simp
    · exact ⟨[Call.hasNext], by simp [applyOffsetLoop, traced_hasNext, h]⟩

theorem applyOffset_journal_extends {σ α : Type} (I : NativeIterator σ α) (s : σ)
    (journal : List Call) (offset cardinality : Nat) :
    ∃ rest, (applyOffset I.traced (s, journal) offset cardinality).2 = journal ++ rest := by
  unfold applyOffset
  split
  · simp only [traced_skip]
    obtain ⟨rest, hrest⟩ := applyOffsetLoop_journal_extends I
      ((offset - cardinality + 1) % UINT_SIZE)
      (I.skip ((cardinality + UINT_SIZE - 1) % UINT_SIZE) s)
      (journal ++ [Call.skip ((cardinality + UINT_SIZE - 1) % UINT_SIZE)])
    exact ⟨[Call.skip ((cardinality + UINT_SIZE - 1) % UINT_SIZE)] ++ rest, by
      rw [hrest]; simp⟩
  · split
    · exact ⟨[Call.skip offset], by simp [traced_skip]⟩
    · exact ⟨[], by simp⟩

theorem string_at_zero_of_ne (ε : Type) (s : String) (h : s ≠ "") :
    ∃ c, (string_at s 0 : Except (Exception ε) Char) = Except.ok c ∧
      s.data.head? = some c := by
  cases hd : s.data with
  | nil => exact absurd (String.ext hd) h
  | cons c cs => exact ⟨c, by simp [string_at, hd], rfl⟩

theorem string_at_zero_empty {ε : Type} :
    (string_at "" 0 : Except (Exception ε) Char) = Except.error Exception.out_of_range :=
  rfl

theorem mem_variablesOf (patterns : List triple) (x : String) :
    x ∈ variablesOf patterns ↔
      ∃ t ∈ patterns, x ∈ termsOf t ∧ x.data.head? = some '?' := by
  induction patterns with
  | nil => simp [variablesOf]
  | cons t rest ih =>
    simp only [variablesOf, Finset.mem_union, List.mem_toFinset, List.mem_filter, ih,
      List.mem_cons, exists_eq_or_imp, isVariable, decide_eq_true_eq]

theorem searchJoinLoop_ok (ε : Type) (patterns : List triple)
    (hne : ∀ t ∈ patterns, "" ∉ termsOf t) (vars : Finset String)
    (joinPatterns : List TripleString) :
    (searchJoinLoop patterns vars joinPatterns
        : Except (Exception ε) (Finset String × List TripleString))
      = Except.ok (vars ∪ variablesOf patterns,
          joinPatterns ++ patterns.map toTripleString) := by
  induction patterns generalizing vars joinPatterns with
  | nil => simp [searchJoinLoop, variablesOf]
  | cons t rest ih =>
    obtain ⟨subj, pred, obj⟩ := t
    have ht := hne (subj, pred, obj) (List.mem_cons_self _ _)
    simp only [termsOf, List.mem_cons, List.mem_singleton, not_or, List.not_mem_nil,
      or_false] at ht
    obtain ⟨cs, hcs, hds⟩ := string_at_zero_of_ne ε subj (Ne.symm ht.1)
    obtain ⟨cp, hcp, hdp⟩ := string_at_zero_of_ne ε pred (Ne.symm ht.2.1)
    obtain ⟨co, hco, hdo⟩ := string_at_zero_of_ne ε obj (Ne.symm ht.2.2)
    simp only [searchJoinLoop, hcs, hcp, hco]
    rw [ih (fun t h => hne t (List.mem_cons_of_mem _ h))]
    have hv : ∀ x : String, x ∈ ((termsOf (subj, pred, obj)).filter isVariable).toFinset ↔
        (x = subj ∧ cs = '?') ∨ (x = pred ∧ cp = '?') ∨ (x = obj ∧ co = '?') := by
      intro x
      simp only [termsOf, List.mem_toFinset, List.mem_filter, List.mem_cons,
        List.mem_singleton, List.not_mem_nil, or_false, isVariable, decide_eq_true_eq]
      constructor
      · rintro ⟨h | h | h, hx⟩
        · subst h; rw [hds] at hx; exact Or.inl ⟨rfl, Option.some.inj hx⟩
        · subst h; rw [hdp] at hx; exact Or.inr (Or.inl ⟨rfl, Option.some.inj hx⟩)
        · subst h; rw [hdo] at hx; exact Or.inr (Or.inr ⟨rfl, Option.some.inj hx⟩)
      · rintro (⟨h, hc⟩ | ⟨h, hc⟩ | ⟨h, hc⟩)
        · subst h; exact ⟨Or.inl rfl, by rw [hds, hc]⟩
        · subst h; exact ⟨Or.inr (Or.inl rfl), by rw [hdp, hc]⟩
        · subst h; exact ⟨Or.inr (Or.inr rfl), by rw [hdo, hc]⟩
    have hvars : (if co = '?' then insert obj (if cp = '?' then insert pred
          (if cs = '?' then insert subj vars else vars)
          else (if cs = '?' then insert subj vars else vars))
        else (if cp = '?' then insert pred (if cs = '?' then insert subj vars else vars)
          else (if cs = '?' then insert subj vars else vars))) ∪ variablesOf rest
        = vars ∪ variablesOf ((subj, pred, obj) :: rest) := by
      ext x
      simp only [variablesOf, Finset.mem_union, hv]
      by_cases h1 : cs = '?' <;> by_cases h2 : cp = '?' <;> by_cases h3 : co = '?' <;>
        simp only [h1, h2, h3, if_true, if_false, Finset.mem_insert, and_true, and_false,
          or_false, false_or] <;> tauto
    rw [hvars]
    simp [toTripleString]

theorem searchJoinLoop_error (ε : Type) (patterns : List triple)
    (hempty : ∃ t ∈ patterns, "" ∈ termsOf t) (vars : Finset String)
    (joinPatterns : List TripleString) :
    (searchJoinLoop patterns vars joinPatterns
        : Except (Exception ε) (Finset String × List TripleString))
      = Except.error Exception.out_of_range := by
  induction patterns generalizing vars joinPatterns with
  | nil => simp at hempty
  | cons t rest ih =>
    obtain ⟨subj, pred, obj⟩ := t
    by_cases hs : subj = ""
    · subst hs
      simp only [searchJoinLoop, string_at_zero_empty]
    · obtain ⟨cs, hcs, -⟩ := string_at_zero_of_ne ε subj hs
      by_cases hp : pred = ""
      · subst hp
        simp only [searchJoinLoop, hcs, string_at_zero_empty]
      · obtain ⟨cp, hcp, -⟩ := string_at_zero_of_ne ε pred hp
        by_cases ho : obj = ""
        · subst ho
          simp only [searchJoinLoop, hcs, hcp, string_at_zero_empty]
        · obtain ⟨co, hco, -⟩ := string_at_zero_of_ne ε obj ho
          simp only [searchJoinLoop, hcs, hcp, hco]
          apply ih
          obtain ⟨t, ht, hmem⟩ := hempty
          rcases List.mem_cons.mp ht with h | h
          · subst h
            simp only [termsOf, List.mem_cons, List.mem_singleton, List.not_mem_nil,
              or_false] at hmem
            rcases hmem with h | h | h
            · exact absurd h.symm hs
            · exact absurd h.symm hp
            · exact absurd h.symm ho
          · exact ⟨t, h, hmem⟩

/-! ## Claims about `applyOffset` -/

/-- C9: for every estimated cardinality and every native iterator, `applyOffset` with
`offset == 0` is a no-op: the handle is returned as it was, and on a journalled
iterator the journal is unchanged, so neither `skip` nor `next` (nor any other
method) was called. -/
theorem applyOffset_zero_noop {σ α : Type} (I : NativeIterator σ α) (it : σ)
    (cardinality : Nat) (journal : List Call) :
    applyOffset I it 0 cardinality = it ∧
      applyOffset I.traced (it, journal) 0 cardinality = (it, journal) := by
  simp [applyOffset]

/-- C3: for `0 < offset < estimate`, `applyOffset` makes exactly one native call,
`skip(offset)`, and pulls nothing; on an iterator whose `skip(k)` positions it at
index `k` of the result sequence `xs`, the handle then stands at index `offset`, so
the next item pulled is `xs[offset]`. -/
theorem applyOffset_below_estimate {σ α : Type} (I : NativeIterator σ α) (xs : List α)
    (pos : σ → Nat) (hI : SkipsToIndex I xs pos) (it : σ) (offset estimate : Nat)
    (h0 : 0 < offset) (hlt : offset < estimate) :
    (applyOffset I.traced (it, []) offset estimate).2 = [Call.skip offset] ∧
      applyOffset I it offset estimate = I.skip offset it ∧
      pos (applyOffset I it offset estimate) = offset ∧
      (offset < xs.length →
        (I.next (applyOffset I it offset estimate)).1 = xs.get? offset) := by
  have hne : ¬ (offset > 0 ∧ offset ≥ estimate) := by omega
  have hEq : applyOffset I it offset estimate = I.skip offset it := by
    simp only [applyOffset, if_neg hne, if_pos h0]
  refine ⟨?_, hEq, ?_, ?_⟩
  · simp only [applyOffset, if_neg hne, if_pos h0, traced_skip, List.nil_append]
  · rw [hEq, hI.skip_pos]
  · intro hlen
    rw [hEq, hI.next_eq _ (by rw [hI.skip_pos]; exact hlen), hI.skip_pos]

theorem applyOffset_below_estimate_witness :
    (0 < 2 ∧ 2 < 3) ∧
      ((applyOffset (listIterator [10, 20, 30, 40] 3).traced (0, []) 2 3).2 = [Call.skip 2] ∧
        applyOffset (listIterator [10, 20, 30, 40] 3) 0 2 3
          = (listIterator [10, 20, 30, 40] 3).skip 2 0 ∧
        id (applyOffset (listIterator [10, 20, 30, 40] 3) 0 2 3) = 2 ∧
        (2 < [10, 20, 30, 40].length →
          ((listIterator [10, 20, 30, 40] 3).next
            (applyOffset (listIterator [10, 20, 30, 40] 3) 0 2 3)).1
              = [10, 20, 30, 40].get? 2)) :=
  ⟨by decide, applyOffset_below_estimate (listIterator [10, 20, 30, 40] 3) [10, 20, 30, 40] id
    (listIterator_skipsToIndex _ _) 0 2 3 (by decide) (by decide)⟩

/-- C2: on an iterator over `xs` whose `skip(k)` positions it at index `k`, for an
estimate `c` with `1 <= c < xs.length` and a 32-bit `offset >= c`: after
`applyOffset(it, offset, c)` the handle stands at index `offset` and the next item
pulled is `xs[offset]` when `offset < xs.length`, and the iterator is exhausted
otherwise; the calls made are one `skip(c - 1)` followed by `m` pulls with
`m <= offset - c + 1`. -/
theorem applyOffset_beyond_estimate {σ α : Type} (I : NativeIterator σ α) (xs : List α)
    (pos : σ → Nat) (hI : SkipsToIndex I xs pos) (it : σ) (offset c : Nat)
    (hc : 1 ≤ c) (hcn : c < xs.length) (hoc : c ≤ offset) (ho : offset < UINT_SIZE) :
    (offset < xs.length →
        pos (applyOffset I it offset c) = offset ∧
        (I.hasNext (applyOffset I it offset c)).1 = true ∧
        (I.next (applyOffset I it offset c)).1 = xs.get? offset) ∧
      (xs.length ≤ offset → (I.hasNext (applyOffset I it offset c)).1 = false) ∧
      ∃ m, m ≤ offset - c + 1 ∧
        (applyOffset I.traced (it, []) offset c).2 = Call.skip (c - 1) :: loopJournal m ∧
        (applyOffset I.traced (it, []) offset c).2.count Call.next = m := by
  have hbr : offset > 0 ∧ offset ≥ c := by omega
  have hsteps : (offset - c + 1) % UINT_SIZE = offset - c + 1 := by
    apply Nat.mod_eq_of_lt
    omega
  have hskip : (c + UINT_SIZE - 1) % UINT_SIZE = c - 1 := by
    have h1 : c + UINT_SIZE - 1 = (c - 1) + UINT_SIZE := by omega
    rw [h1, Nat.add_mod_right]
    apply Nat.mod_eq_of_lt
    omega
  have hEq : applyOffset I it offset c
      = applyOffsetLoop I (offset - c + 1) (I.skip (c - 1) it) := by
    simp only [applyOffset, if_pos hbr, hsteps, hskip]
  have hpos : pos (applyOffset I it offset c) = min offset xs.length := by
    have hsum : c - 1 + (offset - c + 1) = offset := by omega
    rw [hEq, applyOffsetLoop_pos hI _ _ (by rw [hI.skip_pos]; omega), hI.skip_pos, hsum]
  refine ⟨?_, ?_, ?_⟩
  · intro hlt
    have hp : pos (applyOffset I it offset c) = offset := by
      rw [hpos]; omega
    refine ⟨hp, ?_, ?_⟩
    · rw [hI.hasNext_eq, hp]
      simpa using hlt
    · rw [hI.next_eq _ (by rw [hp]; exact hlt), hp]
  · intro hge
    rw [hI.hasNext_eq, hpos]
    simp
    omega
  · have hj : (applyOffset I.traced (it, []) offset c).2
        = Call.skip (c - 1) :: loopJournal (min (offset - c + 1) (xs.length - (c - 1))) := by
      simp only [applyOffset, if_pos hbr, hsteps, hskip, traced_skip, List.nil_append]
      rw [applyOffsetLoop_journal hI, hI.skip_pos]
      rfl
    refine ⟨min (offset - c + 1) (xs.length - (c - 1)), Nat.min_le_left _ _, hj, ?_⟩
    rw [hj, List.count_cons_of_ne (by simp), count_next_loopJournal]

theorem applyOffset_beyond_estimate_witness :
    (1 ≤ 2 ∧ 2 < [10, 20, 30, 40, 50].length ∧ 2 ≤ 3 ∧ 3 < UINT_SIZE) ∧
      ((3 < [10, 20, 30, 40, 50].length →
          id (applyOffset (listIterator [10, 20, 30, 40, 50] 2) 0 3 2) = 3 ∧
          ((listIterator [10, 20, 30, 40, 50] 2).hasNext
            (applyOffset (listIterator [10, 20, 30, 40, 50] 2) 0 3 2)).1 = true ∧
          ((listIterator [10, 20, 30, 40, 50] 2).next
            (applyOffset (listIterator [10, 20, 30, 40, 50] 2) 0 3 2)).1
              = [10, 20, 30, 40, 50].get? 3) ∧
        ([10, 20, 30, 40, 50].length ≤ 3 →
          ((listIterator [10, 20, 30, 40, 50] 2).hasNext
            (applyOffset (listIterator [10, 20, 30, 40, 50] 2) 0 3 2)).1 = false) ∧
        ∃ m, m ≤ 3 - 2 + 1 ∧
          (applyOffset (listIterator [10, 20, 30, 40, 50] 2).traced (0, []) 3 2).2
            = Call.skip (2 - 1) :: loopJournal m ∧
          (applyOffset (listIterator [10, 20, 30, 40, 50] 2).traced (0, []) 3 2).2.count
            Call.next = m) :=
  ⟨by decide, applyOffset_beyond_estimate (listIterator [10, 20, 30, 40, 50] 2)
    [10, 20, 30, 40, 50] id (listIterator_skipsToIndex _ _) 0 3 2
    (by decide) (by decide) (by decide) (by decide)⟩

/-- C8: with an estimated cardinality of `0` and `offset = 1`, on an iterator over
three items whose `skip(k)` positions it at index `k`, `applyOffset` first calls the
native `skip` with `0 - 1` wrapped to `4294967295`, then finds the iterator exhausted
and pulls nothing: the item at index `1` is never reached.  `searchIDs` gets there with
a pattern of known terms that matches no triple and `offset = 1`. -/
theorem applyOffset_zero_estimate_calls_skip :
    applyOffset (listIterator [10, 20, 30] 0).traced (0, []) 1 0
        = (4294967295, [Call.skip 4294967295, Call.hasNext]) ∧
      ((listIterator [10, 20, 30] 0).hasNext
        (applyOffset (listIterator [10, 20, 30] 0) 0 1 0)).1 = false ∧
      (searchIDs sampleHDT.traced "urn:alice" "urn:knows" "30" 0 1).1.iterator.2
        = [Call.search { subject := 1, predicate := 1, object := 2 },
            Call.estimatedNumResults, Call.skip 4294967295, Call.hasNext] := by
  decide

/-! ## Claims about `HDTDocument::searchIDs` and `HDTDocument::search` -/

/-- C1: if at least one non-empty term resolves to identifier `0` in its position,
`searchIDs` returns an iterator built on the base-class native iterator and the
cardinality `0`; the journal of that handle holds its creation only, so no index
search and no `skip` took place; and, the base-class iterator being empty, `hasNext`
of the returned iterator is false at once. -/
theorem searchIDs_unknown_term {σ α : Type} (H : HDT σ α)
    (subject predicate object : String) (limit offset : Nat)
    (hEmpty : (H.iterators.hasNext H.newIterator).1 = false)
    (hUnknown :
      (subject ≠ "" ∧ H.dictionary.stringToId subject TripleComponentRole.SUBJECT = 0) ∨
      (predicate ≠ "" ∧
        H.dictionary.stringToId predicate TripleComponentRole.PREDICATE = 0) ∨
      (object ≠ "" ∧ H.dictionary.stringToId object TripleComponentRole.OBJECT = 0)) :
    searchIDs H subject predicate object limit offset
        = (TripleIDIterator.new H.newIterator subject predicate object limit offset, 0) ∧
      (searchIDs H.traced subject predicate object limit offset).1.iterator
        = (H.newIterator, [Call.newIterator]) ∧
      TripleIDIterator.hasNext H.iterators
        (searchIDs H subject predicate object limit offset).1 = false ∧
      (searchIDs H subject predicate object limit offset).2 = 0 := by
  have hcond : ∀ {τ : Type} (K : HDT τ α), K.dictionary = H.dictionary →
      ((tripleStringtoTripleID K.dictionary
          { subject := subject, predicate := predicate, object := object }).subject = 0
          ∧ subject ≠ "") ∨
      ((tripleStringtoTripleID K.dictionary
          { subject := subject, predicate := predicate, object := object }).predicate = 0
          ∧ predicate ≠ "") ∨
      ((tripleStringtoTripleID K.dictionary
          { subject := subject, predicate := predicate, object := object }).object = 0
          ∧ object ≠ "") := by
    intro τ K hK
    rw [hK]
    simp only [tripleStringtoTripleID]
    tauto
  have h1 : searchIDs H subject predicate object limit offset
      = (TripleIDIterator.new H.newIterator subject predicate object limit offset, 0) := by
    simp only [searchIDs]
    rw [if_pos (hcond H rfl)]
  have h2 : searchIDs H.traced subject predicate object limit offset
      = (TripleIDIterator.new H.traced.newIterator subject predicate object limit offset,
          0) := by
    simp only [searchIDs]
    rw [if_pos (hcond H.traced rfl)]
  refine ⟨h1, ?_, ?_, ?_⟩
  · rw [h2]
    rfl
  · rw [h1]
    simp [TripleIDIterator.hasNext, TripleIDIterator.new, hEmpty]
  · rw [h1]

theorem searchIDs_unknown_term_witness :
    ((sampleHDT.iterators.hasNext sampleHDT.newIterator).1 = false ∧
      (("urn:does-not-exist" ≠ "" ∧
          sampleHDT.dictionary.stringToId "urn:does-not-exist"
            TripleComponentRole.SUBJECT = 0) ∨
        ("" ≠ "" ∧ sampleHDT.dictionary.stringToId "" TripleComponentRole.PREDICATE = 0) ∨
        ("" ≠ "" ∧ sampleHDT.dictionary.stringToId "" TripleComponentRole.OBJECT = 0))) ∧
      (searchIDs sampleHDT "urn:does-not-exist" "" "" 0 5
          = (TripleIDIterator.new sampleHDT.newIterator "urn:does-not-exist" "" "" 0 5, 0) ∧
        (searchIDs sampleHDT.traced "urn:does-not-exist" "" "" 0 5).1.iterator
          = (sampleHDT.newIterator, [Call.newIterator]) ∧
        TripleIDIterator.hasNext sampleHDT.iterators
          (searchIDs sampleHDT "urn:does-not-exist" "" "" 0 5).1 = false ∧
        (searchIDs sampleHDT "urn:does-not-exist" "" "" 0 5).2 = 0) :=
  ⟨⟨by decide, Or.inl (by decide)⟩,
    searchIDs_unknown_term sampleHDT "urn:does-not-exist" "" "" 0 5 (by decide)
      (Or.inl (by decide))⟩

/-- C6: when each term is empty or resolves to a non-zero identifier, `searchIDs`
opens the native iterator with `search` on the translated identifier pattern, asks it
`estimatedNumResults` next, and returns that number as cardinality, whatever `limit`
and `offset` are; `search` returns the cardinality of `searchIDs`. -/
theorem searchIDs_cardinality {σ α : Type} (H : HDT σ α)
    (subject predicate object : String) (limit offset : Nat)
    (hs : subject = "" ∨ H.dictionary.stringToId subject TripleComponentRole.SUBJECT ≠ 0)
    (hp : predicate = "" ∨
      H.dictionary.stringToId predicate TripleComponentRole.PREDICATE ≠ 0)
    (ho : object = "" ∨ H.dictionary.stringToId object TripleComponentRole.OBJECT ≠ 0) :
    (searchIDs H subject predicate object limit offset).2
        = (H.iterators.estimatedNumResults (H.search (tripleStringtoTripleID H.dictionary
            { subject := subject, predicate := predicate, object := object }))).1 ∧
      (∃ rest, (searchIDs H.traced subject predicate object limit offset).1.iterator.2
        = Call.search (tripleStringtoTripleID H.dictionary
            { subject := subject, predicate := predicate, object := object })
          :: Call.estimatedNumResults :: rest) ∧
      (∀ limit2 offset2, (searchIDs H subject predicate object limit2 offset2).2
        = (searchIDs H subject predicate object limit offset).2) ∧
      (search H subject predicate object limit offset).2
        = (searchIDs H subject predicate object limit offset).2 := by
  have hcond : ∀ {τ : Type} (K : HDT τ α), K.dictionary = H.dictionary →
      ¬ (((tripleStringtoTripleID K.dictionary
          { subject := subject, predicate := predicate, object := object }).subject = 0
          ∧ subject ≠ "") ∨
      ((tripleStringtoTripleID K.dictionary
          { subject := subject, predicate := predicate, object := object }).predicate = 0
          ∧ predicate ≠ "") ∨
      ((tripleStringtoTripleID K.dictionary
          { subject := subject, predicate := predicate, object := object }).object = 0
          ∧ object ≠ "")) := by
    intro τ K hK
    rw [hK]
    simp only [tripleStringtoTripleID]
    tauto
  have hcard : ∀ l o, (searchIDs H subject predicate object l o).2
      = (H.iterators.estimatedNumResults (H.search (tripleStringtoTripleID H.dictionary
          { subject := subject, predicate := predicate, object := object }))).1 := by
    intro l o
    simp only [searchIDs]
    rw [if_neg (hcond H rfl)]
  refine ⟨hcard _ _, ?_, ?_, rfl⟩
  · simp only [searchIDs]
    rw [if_neg (hcond H.traced rfl)]
    simp only [TripleIDIterator.new]
    obtain ⟨rest, hrest⟩ := applyOffset_journal_extends H.iterators
      (H.iterators.estimatedNumResults (H.search (tripleStringtoTripleID H.dictionary
        { subject := subject, predicate := predicate, object := object }))).2
      [Call.search (tripleStringtoTripleID H.dictionary
        { subject := subject, predicate := predicate, object := object }),
        Call.estimatedNumResults]
      offset
      ((H.iterators.estimatedNumResults (H.search (tripleStringtoTripleID H.dictionary
        { subject := subject, predicate := predicate, object := object }))).1 % UINT_SIZE)
    exact ⟨rest, hrest⟩
  · intro l o
    rw [hcard, hcard]

theorem searchIDs_cardinality_witness :
    (("urn:alice" = "" ∨
        sampleHDT.dictionary.stringToId "urn:alice" TripleComponentRole.SUBJECT ≠ 0) ∧
      ("" = "" ∨ sampleHDT.dictionary.stringToId "" TripleComponentRole.PREDICATE ≠ 0) ∧
      ("" = "" ∨ sampleHDT.dictionary.stringToId "" TripleComponentRole.OBJECT ≠ 0)) ∧
      ((searchIDs sampleHDT "urn:alice" "" "" 0 1).2
          = (sampleHDT.iterators.estimatedNumResults (sampleHDT.search
              (tripleStringtoTripleID sampleHDT.dictionary
                { subject := "urn:alice", predicate := "", object := "" }))).1 ∧
        (∃ rest, (searchIDs sampleHDT.traced "urn:alice" "" "" 0 1).1.iterator.2
          = Call.search (tripleStringtoTripleID sampleHDT.dictionary
              { subject := "urn:alice", predicate := "", object := "" })
            :: Call.estimatedNumResults :: rest) ∧
        (∀ limit2 offset2, (searchIDs sampleHDT "urn:alice" "" "" limit2 offset2).2
          = (searchIDs sampleHDT "urn:alice" "" "" 0 1).2) ∧
        (search sampleHDT "urn:alice" "" "" 0 1).2
          = (searchIDs sampleHDT "urn:alice" "" "" 0 1).2) :=
  ⟨⟨Or.inr (by decide), Or.inl rfl, Or.inl rfl⟩,
    searchIDs_cardinality sampleHDT "urn:alice" "" "" 0 1
      (Or.inr (by decide)) (Or.inl rfl) (Or.inl rfl)⟩

/-! ## Claims about `HDTDocument::idsToString` and the constructor -/

/-- C5: in a dictionary where `idToString` inverts `stringToId` in each position, for
terms `s`, `p`, `o` known in the subject, predicate and object position: `idsToString`
applied to the identifiers the dictionary assigns to `(s, p, o)` returns `(s, p, o)`. -/
theorem idsToString_roundtrip (d : Dictionary) (s p o : String)
    (hInv : ∀ t role, d.stringToId t role ≠ 0 →
      d.idToString (d.stringToId t role) role = some t)
    (hs : d.stringToId s TripleComponentRole.SUBJECT ≠ 0)
    (hp : d.stringToId p TripleComponentRole.PREDICATE ≠ 0)
    (ho : d.stringToId o TripleComponentRole.OBJECT ≠ 0) :
    idsToString d
        (tripleStringtoTripleID d { subject := s, predicate := p, object := o }).subject
        (tripleStringtoTripleID d { subject := s, predicate := p, object := o }).predicate
        (tripleStringtoTripleID d { subject := s, predicate := p, object := o }).object
      = some (s, p, o) := by
  simp only [idsToString, tripleStringtoTripleID, hInv _ _ hs, hInv _ _ hp, hInv _ _ ho]

theorem sampleDictionary_inverse (t : String) (role : TripleComponentRole)
    (h : sampleDictionary.stringToId t role ≠ 0) :
    sampleDictionary.idToString (sampleDictionary.stringToId t role) role = some t := by
  cases role <;> simp only [sampleDictionary] at h ⊢ <;> split_ifs at h ⊢ <;> simp_all

theorem idsToString_roundtrip_witness :
    ((∀ t role, sampleDictionary.stringToId t role ≠ 0 →
        sampleDictionary.idToString (sampleDictionary.stringToId t role) role = some t) ∧
      sampleDictionary.stringToId "urn:carol" TripleComponentRole.SUBJECT ≠ 0 ∧
      sampleDictionary.stringToId "urn:knows" TripleComponentRole.PREDICATE ≠ 0 ∧
      sampleDictionary.stringToId "urn:bob" TripleComponentRole.OBJECT ≠ 0) ∧
      idsToString sampleDictionary
          (tripleStringtoTripleID sampleDictionary
            { subject := "urn:carol", predicate := "urn:knows", object := "urn:bob" }).subject
          (tripleStringtoTripleID sampleDictionary
            { subject := "urn:carol", predicate := "urn:knows", object := "urn:bob" }).predicate
          (tripleStringtoTripleID sampleDictionary
            { subject := "urn:carol", predicate := "urn:knows", object := "urn:bob" }).object
        = some ("urn:carol", "urn:knows", "urn:bob") :=
  ⟨⟨sampleDictionary_inverse, by decide, by decide, by decide⟩,
    idsToString_roundtrip sampleDictionary "urn:carol" "urn:knows" "urn:bob"
      sampleDictionary_inverse (by decide) (by decide) (by decide)⟩

/-- C7: for every path, the file constructor throws the runtime error
"Cannot open HDT file '<path>': Not Found!" if and only if `file_exists` says the file
is not readable, and in that case no library call has been made: the index is not
mapped and the query processor is not created. -/
theorem constructor_not_found {ε hdt qp : Type} (R : Runtime ε hdt qp) (file : String) :
    ((HDTDocument.HDTDocument R file).1
        = Except.error (Exception.runtime_error
            ("Cannot open HDT file '" ++ file ++ "': Not Found!"))
      ↔ file_exists R file = false) ∧
    (file_exists R file = false → (HDTDocument.HDTDocument R file).2 = []) := by
  unfold HDTDocument.HDTDocument
  cases hf : file_exists R file
  · simp
  · cases hm : R.mapIndexedHDT file <;> simp

theorem constructor_not_found_witness :
    (((HDTDocument.HDTDocument sampleRuntime "missing.hdt").1
          = Except.error (Exception.runtime_error
              ("Cannot open HDT file '" ++ "missing.hdt" ++ "': Not Found!"))
        ↔ file_exists sampleRuntime "missing.hdt" = false) ∧
      (file_exists sampleRuntime "missing.hdt" = false →
        (HDTDocument.HDTDocument sampleRuntime "missing.hdt").2 = [])) ∧
      file_exists sampleRuntime "missing.hdt" = false ∧
      HDTDocument.HDTDocument sampleRuntime "test.hdt"
        = (Except.ok { hdt_file := "test.hdt", hdt := 0, processor := 1 },
            [LibCall.mapIndexedHDT "test.hdt", LibCall.newQueryProcessor]) :=
  ⟨constructor_not_found sampleRuntime "missing.hdt", by decide, by
    simp [HDTDocument.HDTDocument, file_exists, sampleRuntime]⟩

/-! ## Claims about `HDTDocument::searchJoin` -/

/-- C4, as the code has it: `searchJoin` does not take an empty term for a wildcard.
If some pattern has an empty subject, predicate or object, `searchJoin` fails with
`std::out_of_range`, whatever the join engine is, so the engine is not reached; if no
term is empty, the patterns go to the join engine unchanged and the empty string is
not in the variable set. -/
theorem searchJoin_empty_term {ε β : Type} (processor : QueryProcessor ε β)
    (patterns : List triple) :
    ((∃ t ∈ patterns, "" ∈ termsOf t) →
        searchJoin processor patterns = Except.error Exception.out_of_range) ∧
      ((∀ t ∈ patterns, "" ∉ termsOf t) →
        searchJoin processor patterns
            = searchJoinCall processor (patterns.map toTripleString) (variablesOf patterns) ∧
          "" ∉ variablesOf patterns) := by
  constructor
  · intro h
    simp only [searchJoin, searchJoinLoop_error ε patterns h]
  · intro h
    constructor
    · simp only [searchJoin, searchJoinLoop_ok ε patterns h, Finset.empty_union,
        List.nil_append]
    · rw [mem_variablesOf]
      rintro ⟨t, -, -, hx⟩
      exact absurd hx (by decide)

/-- C4 fails as stated: the pattern `("?s", "", "urn:bob")`, with an empty predicate,
makes `searchJoin` fail with `std::out_of_range`. -/
theorem searchJoin_empty_predicate_fails :
    searchJoin echoProcessor [("?s", "", "urn:bob")]
      = Except.error Exception.out_of_range := by
  rfl

theorem searchJoin_empty_term_witness :
    ((∃ t ∈ [("?s", "", "urn:bob")], "" ∈ termsOf t) →
        searchJoin echoProcessor [("?s", "", "urn:bob")]
          = Except.error Exception.out_of_range) ∧
      (∃ t ∈ [(("?s", "", "urn:bob") : triple)], "" ∈ termsOf t) ∧
      ((∀ t ∈ [("?s", "urn:knows", "urn:bob")], "" ∉ termsOf t) →
        searchJoin echoProcessor [("?s", "urn:knows", "urn:bob")]
            = searchJoinCall echoProcessor
                ([("?s", "urn:knows", "urn:bob")].map toTripleString)
                (variablesOf [("?s", "urn:knows", "urn:bob")]) ∧
          "" ∉ variablesOf [("?s", "urn:knows", "urn:bob")]) ∧
      (∀ t ∈ [(("?s", "urn:knows", "urn:bob") : triple)], "" ∉ termsOf t) :=
  ⟨(searchJoin_empty_term echoProcessor [("?s", "", "urn:bob")]).1,
    ⟨("?s", "", "urn:bob"), by simp, by simp [termsOf]⟩,
    (searchJoin_empty_term echoProcessor [("?s", "urn:knows", "urn:bob")]).2,
    by simp [termsOf]⟩

/-- C10: when every term of every pattern is non-empty, `searchJoin` calls the join
engine with the input patterns, in the same order and number, and with the variable
set `variablesOf patterns`: a string is in it exactly when it is the subject,
predicate or object of some pattern and its first character is `?`, and it is in it
once however often it occurs. -/
theorem searchJoin_variables {ε β : Type} (processor : QueryProcessor ε β)
    (patterns : List triple) (hne : ∀ t ∈ patterns, "" ∉ termsOf t) :
    (searchJoinLoop patterns ∅ []
          : Except (Exception ε) (Finset String × List TripleString))
        = Except.ok (variablesOf patterns, patterns.map toTripleString) ∧
      searchJoin processor patterns
        = searchJoinCall processor (patterns.map toTripleString) (variablesOf patterns) ∧
      (∀ x, x ∈ variablesOf patterns ↔
        ∃ t ∈ patterns, (x = t.1 ∨ x = t.2.1 ∨ x = t.2.2) ∧ x.data.head? = some '?') ∧
      (∀ x ∈ variablesOf patterns, Multiset.count x (variablesOf patterns).val = 1) ∧
      (patterns.map toTripleString).length = patterns.length ∧
      (∀ i (h : i < patterns.length),
        ((patterns.map toTripleString).get? i) = some (toTripleString (patterns.get ⟨i, h⟩)))
      := by
  have hloop := searchJoinLoop_ok ε patterns hne ∅ []
  simp only [Finset.empty_union, List.nil_append] at hloop
  refine ⟨hloop, ?_, ?_, ?_, by simp, ?_⟩
  · simp only [searchJoin, hloop]
  · intro x
    rw [mem_variablesOf]
    simp [termsOf]
  · intro x hx
    exact Multiset.count_eq_one_of_mem (variablesOf patterns).nodup hx
  · intro i h
    simp [List.getElem?_eq_getElem, h]

theorem searchJoin_variables_witness :
    (∀ t ∈ [(("?s", "urn:knows", "urn:bob") : triple), ("?s", "urn:age", "?a")],
        "" ∉ termsOf t) ∧
      searchJoin echoProcessor [("?s", "urn:knows", "urn:bob"), ("?s", "urn:age", "?a")]
        = Except.ok { iterator :=
            ([{ subject := "?s", predicate := "urn:knows", object := "urn:bob" },
              { subject := "?s", predicate := "urn:age", object := "?a" }],
             {"?s", "?a"}) } := by
  have hne : ∀ t ∈ [(("?s", "urn:knows", "urn:bob") : triple), ("?s", "urn:age", "?a")],
      "" ∉ termsOf t := by
    simp [termsOf]
  refine ⟨hne, ?_⟩
  have hvars : variablesOf [(("?s", "urn:knows", "urn:bob") : triple),
      ("?s", "urn:age", "?a")] = {"?s", "?a"} := by
    decide
  rw [(searchJoin_variables echoProcessor _ hne).2.1, hvars]
  rfl

end PyHDT
